/-
  Verification of the log-based deployment completion poller of
  EnforceAuth/deploy-action.

  The definitions below are a shallow embedding of the full-featured
  `pollForCompletion` variant in `src/oidc.ts` (the variant with
  error-level fail-fast, per-phase timings and permanent-authorization
  detection; the surrounding helpers `getLogId`, `calculatePhaseDurations`,
  `parseTimestamp`, `isSuccessful`, `isFailed` are embedded from the same
  file) together with the post-polling section of `run()` in `src/main.ts`.

  Modelling conventions:
  - JavaScript `Date.parse` is abstracted as an explicit parameter
    `parseTs : String -> Option Int` (milliseconds since epoch, `none`
    for an unparsable instant, mirroring the `NaN` check in
    `parseTimestamp`).
  - Wall-clock time is threaded explicitly: each loop iteration carries
    the elapsed milliseconds observed at its top (`Date.now() - startTime`)
    and the outcome of the `getPolicyLogs` call the iteration would make.
  - JavaScript objects used as string-keyed records (`PhaseTimings`) are
    association lists in key-insertion order with first-match lookup and
    in-place replacement on assignment.
  - `core.info` / `core.warning` / `core.error` emissions are modelled as
    structured `OutputEvent`s collected in emission order; the startup
    banner and blank separator lines are omitted as pure formatting.
  - Falsy tests on strings (`||`) and the nullish test (`??`) are
    modelled separately (`orElseStr` vs `Option.orElse`).
-/
import Mathlib

namespace DeployAction

/-- Substring search helper: does `pat` occur as a prefix of some suffix
of the character list?  (Backs the embedding of JavaScript
`String.prototype.includes`.) -/
def containsSubAux (pat : List Char) : List Char → Bool
  | [] => pat.isPrefixOf ([] : List Char)
  | c :: rest => pat.isPrefixOf (c :: rest) || containsSubAux pat rest

/-- Embedding of JavaScript `s.includes(pat)`. -/
def containsSub (s pat : String) : Bool :=
  containsSubAux pat.data s.data

/-- Embedding of JavaScript `o || d` where `o` is an optional string:
`undefined` and the empty string are falsy. -/
def orElseStr (o : Option String) (d : String) : String :=
  match o with
  | none => d
  | some s => if s = "" then d else s

/-- The three terminal statuses of `PollingResult` in `src/oidc.ts`. -/
inductive Status where
  | success
  | failed
  | timeout
deriving DecidableEq, Repr

/-- The `details` payload of a log entry metadata object, with the fields
the poller reads (`details.phase`, `details.bundle_version`,
`details.deployment_url`). -/
structure MetaDetails where
  phase : Option String := none
  bundle_version : Option String := none
  deployment_url : Option String := none
deriving DecidableEq, Repr

/-- The metadata payload of a `LogEntry`, with the fields the poller
reads (`action`, `timestamp`, `duration_ms`, `message`, `error`,
`details`). -/
structure LogMetadata where
  action : Option String := none
  timestamp : Option String := none
  duration_ms : Option Nat := none
  message : Option String := none
  error : Option String := none
  details : Option MetaDetails := none
deriving DecidableEq, Repr

/-- `LogEntry` from `src/api-client.ts`: one observation of the remote
log stream. -/
structure LogEntry where
  timestamp : String
  level : String
  message : String
  metadata : Option LogMetadata := none
deriving DecidableEq, Repr

/-- `PhaseTiming` from `src/oidc.ts`. -/
structure PhaseTiming where
  startedAt : String
  durationMs : Option Int := none
deriving DecidableEq, Repr

/-- `PhaseTimings`: a string-keyed record, modelled as an association
list in key-insertion order. -/
abbrev PhaseTimings := List (String × PhaseTiming)

/-- `PollingResult` from `src/oidc.ts`. -/
structure PollingResult where
  status : Status
  durationMs : Option Nat := none
  errorMessage : Option String := none
  phases : List String := []
  phaseTimings : Option PhaseTimings := none
  bundleVersion : Option String := none
  deploymentUrl : Option String := none
deriving DecidableEq, Repr

/-- `LogVerbosity` from `src/polling.ts` / `src/oidc.ts`. -/
inductive LogVerbosity where
  | none
  | quiet
  | normal
  | verbose
deriving DecidableEq, Repr

/-- `PollingConfig` with the defaults of `DEFAULT_POLLING_CONFIG`
already merged in. -/
structure PollingConfig where
  pollDelayMs : Nat := 2000
  logLimit : Nat := 200
  logVerbosity : LogVerbosity := LogVerbosity.normal
deriving DecidableEq, Repr

/-- `showPhases` verbosity helper from `pollForCompletion`. -/
def showPhases (cfg : PollingConfig) : Bool :=
  cfg.logVerbosity ≠ LogVerbosity.none

/-- `showLogs` verbosity helper from `pollForCompletion`. -/
def showLogs (cfg : PollingConfig) : Bool :=
  cfg.logVerbosity = LogVerbosity.normal ∨ cfg.logVerbosity = LogVerbosity.verbose

/-- `showDebugLogs` verbosity helper from `pollForCompletion`. -/
def showDebugLogs (cfg : PollingConfig) : Bool :=
  cfg.logVerbosity = LogVerbosity.verbose

/-- The message digest inside `getLogId`:
`log.message.length + log.message.slice(0, 20) + log.message.slice(-20)`
(number-to-string coercion of the length followed by head and tail
slices). -/
def messageHash (msg : String) : String :=
  toString msg.length ++ msg.take 20 ++ msg.drop (msg.length - 20)

/-- `getLogId` from `src/oidc.ts`: the deduplication fingerprint of a
log entry. -/
def getLogId (log : LogEntry) : String :=
  let metadataId := orElseStr (log.metadata.bind LogMetadata.action) ""
  log.timestamp ++ "-" ++ messageHash log.message ++ "-" ++ metadataId

/-- `formatTimestamp` from `src/oidc.ts`: `isoTimestamp.slice(11, 23)`. -/
def formatTimestamp (isoTimestamp : String) : String :=
  (isoTimestamp.drop 11).take 12

/-- Embedding of JavaScript `s.toLowerCase()` (character-wise lowering,
as the levels compared are plain ASCII labels). -/
def toLowerCase (s : String) : String :=
  String.mk (s.data.map Char.toLower)

/-- JavaScript truthiness of the `durationMs` field (`!result[phase].durationMs`):
`undefined` and `0` are falsy. -/
def jsTruthyDur : Option Int → Bool
  | none => false
  | some d => d ≠ 0

/-- Record assignment `m[k] = v` on a string-keyed object: replaces the
value in place if the key exists, otherwise appends it. -/
def recordSet : PhaseTimings → String → PhaseTiming → PhaseTimings
  | [], k, v => [(k, v)]
  | (k', v') :: rest, k, v =>
    if k' = k then (k, v) :: rest else (k', v') :: recordSet rest k v

/-- `calculatePhaseDurations` from `src/oidc.ts`: walks `phases` in
first-observed order; a phase with no timing entry is skipped; a phase
whose `durationMs` is still falsy gets the gap between its own
`startedAt` and the next phase's `startedAt` (the `completedAt` boundary
for the last phase), left untouched when either instant fails to
parse. -/
def calculatePhaseDurations (parseTs : String → Option Int)
    (phaseTimings : PhaseTimings) :
    List String → Option String → PhaseTimings
  | [], _ => []
  | p :: rest, completedAt =>
    match phaseTimings.lookup p with
    | none => calculatePhaseDurations parseTs phaseTimings rest completedAt
    | some timing =>
      let entry :=
        if jsTruthyDur timing.durationMs then timing
        else
          match parseTs timing.startedAt with
          | none => timing
          | some startTime =>
            let endTime : Option Int :=
              match rest with
              | next :: _ =>
                match phaseTimings.lookup next with
                | some nextTiming => parseTs nextTiming.startedAt
                | none => none
              | [] => completedAt.bind parseTs
            match endTime with
            | some e => { timing with durationMs := some (e - startTime) }
            | none => timing
      (p, entry) :: calculatePhaseDurations parseTs phaseTimings rest completedAt

/-- The session-scoped mutable state of `pollForCompletion`:
`seenLogIds`, `seenPhases`, `phases`, `phaseTimings`. -/
structure PollState where
  seenLogIds : List String
  seenPhases : List String
  phases : List String
  phaseTimings : PhaseTimings
deriving DecidableEq, Repr

/-- The progress lines `pollForCompletion` emits through
`core.info` / `core.warning` / `core.error`, as structured events. -/
inductive OutputEvent where
  | logLine (time : String) (level : String) (message : String)
  | phaseDone (time : String) (phase : String) (durationMs : Int)
  | phaseStart (time : String) (phase : String)
  | phaseCrossFail (time : String) (phase : String)
  | completedInfo (durationMs : Option Nat)
  | bundleInfo (version : String)
  | urlInfo (url : String)
  | phaseDurationSummary (phase : String) (durationMs : Int)
  | failedError (message : String)
  | timeoutError
  | authError
  | fetchWarn (message : String)
deriving DecidableEq, Repr

/-- What one processed entry (or one loop iteration) produces: the
updated session state, the emitted progress events, and the terminal
result when one was reached. -/
structure StepOut where
  state : PollState
  output : List OutputEvent
  result : Option PollingResult
deriving DecidableEq, Repr

/-- The real-time log line emission at the top of the entry loop,
gated by `showLogs` / `showDebugLogs`. -/
def logLineOutput (cfg : PollingConfig) (log : LogEntry) : List OutputEvent :=
  if showLogs cfg && (!(toLowerCase log.level == "debug") || showDebugLogs cfg) then
    [OutputEvent.logLine (formatTimestamp log.timestamp) log.level log.message]
  else []

/-- The fail-fast branch on an error-level entry in `pollForCompletion`
(`if (logLevel === "error")`): message from `metadata.error ?? metadata.message`,
falling back to the entry message; timings finalized without an end
boundary. -/
def handleErrorLevel (parseTs : String → Option Int) (cfg : PollingConfig)
    (s1 : PollState) (log : LogEntry) : StepOut :=
  let failOut : List OutputEvent :=
    match s1.phases.getLast? with
    | some failedPhase =>
      if showPhases cfg then
        [OutputEvent.phaseCrossFail (formatTimestamp log.timestamp) failedPhase]
      else []
    | none => []
  let rawError :=
    (log.metadata.bind LogMetadata.error).orElse
      fun _ => log.metadata.bind LogMetadata.message
  let errorMessage := rawError.getD log.message
  ⟨s1, failOut ++ [OutputEvent.failedError errorMessage],
   some { status := Status.failed, errorMessage := some errorMessage,
          phases := s1.phases,
          phaseTimings :=
            some (calculatePhaseDurations parseTs s1.phaseTimings s1.phases none) }⟩

/-- The `report_phase_change_success` branch of `pollForCompletion`:
a non-empty, unseen `details.phase` is appended with its `startedAt`
recorded once; anything else is a no-op. -/
def handlePhaseChange (parseTs : String → Option Int) (cfg : PollingConfig)
    (s1 : PollState) (log : LogEntry) (md : LogMetadata) : StepOut :=
  let timestamp := orElseStr md.timestamp log.timestamp
  match md.details.bind MetaDetails.phase with
  | none => ⟨s1, [], none⟩
  | some phase =>
    if phase == "" || s1.seenPhases.contains phase then ⟨s1, [], none⟩
    else
      let prevOut : List OutputEvent :=
        match s1.phases.getLast? with
        | some prevPhase =>
          if showPhases cfg then
            match s1.phaseTimings.lookup prevPhase with
            | some prevTiming =>
              match parseTs timestamp, parseTs prevTiming.startedAt with
              | some endT, some startT =>
                [OutputEvent.phaseDone (formatTimestamp timestamp) prevPhase (endT - startT)]
              | _, _ => []
            | none => []
          else []
        | none => []
      let s2 : PollState :=
        { s1 with
          seenPhases := s1.seenPhases ++ [phase],
          phases := s1.phases ++ [phase],
          phaseTimings := recordSet s1.phaseTimings phase { startedAt := timestamp } }
      let startOut :=
        if showPhases cfg then [OutputEvent.phaseStart (formatTimestamp timestamp) phase]
        else []
      ⟨s2, prevOut ++ startOut, none⟩

/-- The `pipeline_complete` branch of `pollForCompletion`: terminal
success carrying `duration_ms`, `details.bundle_version`,
`details.deployment_url`, with timings finalized at the completion
boundary. -/
def handleComplete (parseTs : String → Option Int) (cfg : PollingConfig)
    (s1 : PollState) (log : LogEntry) (md : LogMetadata) : StepOut :=
  let durationMs := md.duration_ms
  let bundleVersion := md.details.bind MetaDetails.bundle_version
  let deploymentUrl := md.details.bind MetaDetails.deployment_url
  let completedAt := orElseStr md.timestamp log.timestamp
  let finalTimings :=
    calculatePhaseDurations parseTs s1.phaseTimings s1.phases (some completedAt)
  let lastOut : List OutputEvent :=
    match s1.phases.getLast? with
    | some lastPhase =>
      if showPhases cfg then
        match (finalTimings.lookup lastPhase).bind PhaseTiming.durationMs with
        | some d => [OutputEvent.phaseDone (formatTimestamp completedAt) lastPhase d]
        | none => []
      else []
    | none => []
  let infoOut :=
    [OutputEvent.completedInfo durationMs]
      ++ (match bundleVersion with
          | some v => [OutputEvent.bundleInfo v]
          | none => [])
      ++ (match deploymentUrl with
          | some u => [OutputEvent.urlInfo u]
          | none => [])
  let summaryOut : List OutputEvent :=
    if showPhases cfg && !finalTimings.isEmpty then
      s1.phases.filterMap fun p =>
        (finalTimings.lookup p).bind fun t =>
          t.durationMs.map fun d => OutputEvent.phaseDurationSummary p d
    else []
  ⟨s1, lastOut ++ infoOut ++ summaryOut,
   some { status := Status.success, durationMs := durationMs,
          phases := s1.phases, phaseTimings := some finalTimings,
          bundleVersion := bundleVersion, deploymentUrl := deploymentUrl }⟩

/-- The `pipeline_failed` / `pipeline_error` branch of
`pollForCompletion`: terminal failure with `metadata.message` (fallback
literal) and timings finalized at the failure boundary. -/
def handleFailed (parseTs : String → Option Int) (cfg : PollingConfig)
    (s1 : PollState) (log : LogEntry) (md : LogMetadata) : StepOut :=
  let errorMessage := orElseStr md.message "Deployment failed without error message"
  let failedAt := orElseStr md.timestamp log.timestamp
  let failOut : List OutputEvent :=
    match s1.phases.getLast? with
    | some failedPhase =>
      if showPhases cfg then
        [OutputEvent.phaseCrossFail (formatTimestamp failedAt) failedPhase]
      else []
    | none => []
  ⟨s1, failOut ++ [OutputEvent.failedError errorMessage],
   some { status := Status.failed, errorMessage := some errorMessage,
          phases := s1.phases,
          phaseTimings :=
            some (calculatePhaseDurations parseTs s1.phaseTimings s1.phases (some failedAt)) }⟩

/-- The classification part of the entry-loop body, after the dedup
mark and the real-time log line: error-level fail-fast, the
`if (!metadata?.action) continue` guard (where an empty `action` string
is falsy), then dispatch on the `action` discriminator. -/
def processBranch (parseTs : String → Option Int) (cfg : PollingConfig)
    (s1 : PollState) (log : LogEntry) : StepOut :=
  if toLowerCase log.level == "error" then handleErrorLevel parseTs cfg s1 log
  else
    match log.metadata with
    | none => ⟨s1, [], none⟩
    | some md =>
      match md.action with
      | none => ⟨s1, [], none⟩
      | some act =>
        if act == "" then ⟨s1, [], none⟩
        else if act == "report_phase_change_success" then
          handlePhaseChange parseTs cfg s1 log md
        else if act == "pipeline_complete" then
          handleComplete parseTs cfg s1 log md
        else if act == "pipeline_failed" || act == "pipeline_error" then
          handleFailed parseTs cfg s1 log md
        else ⟨s1, [], none⟩

/-- The body of the `for (const log of logs)` loop in
`pollForCompletion` for one entry: dedup check and mark, real-time log
line, then classification. -/
def processLog (parseTs : String → Option Int) (cfg : PollingConfig)
    (s : PollState) (log : LogEntry) : StepOut :=
  if s.seenLogIds.contains (getLogId log) then ⟨s, [], none⟩
  else
    let s1 : PollState := { s with seenLogIds := s.seenLogIds ++ [getLogId log] }
    let branch := processBranch parseTs cfg s1 log
    ⟨branch.state, logLineOutput cfg log ++ branch.output, branch.result⟩

/-- The `for (const log of logs)` loop over one fetched batch: entries
are processed in arrival order and the first terminal classification
returns immediately. -/
def processLogs (parseTs : String → Option Int) (cfg : PollingConfig) :
    PollState → List LogEntry → StepOut
  | s, [] => ⟨s, [], none⟩
  | s, log :: rest =>
    let o := processLog parseTs cfg s log
    match o.result with
    | some r => ⟨o.state, o.output, some r⟩
    | none =>
      let o2 := processLogs parseTs cfg o.state rest
      ⟨o2.state, o.output ++ o2.output, o2.result⟩

/-- One `getPolicyLogs` call as the poll loop sees it: a batch of
entries or a raised error message. -/
inductive Fetch where
  | ok (logs : List LogEntry)
  | fail (message : String)
deriving DecidableEq, Repr

/-- One iteration of the `while (true)` loop: the elapsed wall-clock
milliseconds observed at its top and the outcome the fetch would
produce. -/
structure Iteration where
  elapsed : Nat
  fetch : Fetch
deriving DecidableEq, Repr

/-- An apostrophe character, spelled via its code point. -/
def sq : String := String.singleton (Char.ofNat 39)

/-- The remediation message returned on a permanent authorization
failure of the log fetch. -/
def permScopeMessage : String :=
  "Missing " ++ sq ++ "pipeline:read" ++ sq ++ " scope in trust policy. " ++
    "Add the " ++ sq ++ "Read" ++ sq ++ " permission in the EnforceAuth console."

/-- The permanent-authorization test applied to a fetch error message:
`message.includes("insufficient_scope") || message.includes("Forbidden")`. -/
def isPermanentAuthError (message : String) : Bool :=
  containsSub message "insufficient_scope" || containsSub message "Forbidden"

/-- One full iteration of the `while (true)` loop of
`pollForCompletion`: deadline check first, then the fetch (permanent
authorization failures terminal, other failures transient), then the
batch. -/
def pollStep (parseTs : String → Option Int) (cfg : PollingConfig)
    (timeoutMs : Nat) (s : PollState) (it : Iteration) : StepOut :=
  if timeoutMs ≤ it.elapsed then
    ⟨s, [OutputEvent.timeoutError],
     some { status := Status.timeout, phases := s.phases,
            phaseTimings :=
              some (calculatePhaseDurations parseTs s.phaseTimings s.phases none) }⟩
  else
    match it.fetch with
    | Fetch.fail message =>
      if isPermanentAuthError message then
        ⟨s, [OutputEvent.authError],
         some { status := Status.failed, errorMessage := some permScopeMessage,
                phases := s.phases,
                phaseTimings :=
                  some (calculatePhaseDurations parseTs s.phaseTimings s.phases none) }⟩
      else ⟨s, [OutputEvent.fetchWarn message], none⟩
    | Fetch.ok logs => processLogs parseTs cfg s logs

/-- What a whole poll session produces over a trace of iterations:
final state, all progress events, the terminal result if one was
reached, and how many fetch calls were made. -/
structure RunOut where
  state : PollState
  output : List OutputEvent
  result : Option PollingResult
  fetchCalls : Nat
deriving DecidableEq, Repr

/-- The `while (true)` loop of `pollForCompletion`, driven by a finite
trace of iterations: stops at the first terminal result; a `none`
result means the trace was exhausted with the session still polling.
An iteration stopped by the deadline check performs no fetch. -/
def pollRun (parseTs : String → Option Int) (cfg : PollingConfig)
    (timeoutMs : Nat) : PollState → List Iteration → RunOut
  | s, [] => ⟨s, [], none, 0⟩
  | s, it :: rest =>
    let o := pollStep parseTs cfg timeoutMs s it
    let fetched := if timeoutMs ≤ it.elapsed then 0 else 1
    match o.result with
    | some r => ⟨o.state, o.output, some r, fetched⟩
    | none =>
      let o2 := pollRun parseTs cfg timeoutMs o.state rest
      ⟨o2.state, o.output ++ o2.output, o2.result, fetched + o2.fetchCalls⟩

/-- The empty session state a fresh `pollForCompletion` invocation
starts from. -/
def initState : PollState := ⟨[], [], [], []⟩

/-- `pollForCompletion` from `src/oidc.ts`: a fresh session over a
trace of loop iterations, with `timeoutMs = timeoutMinutes * 60 * 1000`. -/
def pollForCompletion (parseTs : String → Option Int) (cfg : PollingConfig)
    (timeoutMinutes : Nat) (trace : List Iteration) : RunOut :=
  pollRun parseTs cfg (timeoutMinutes * 60 * 1000) initState trace

/-- `isSuccessful` from `src/oidc.ts` / `src/polling.ts`. -/
def isSuccessful (result : PollingResult) : Bool :=
  decide (result.status = Status.success)

/-- `isFailed` from `src/oidc.ts` / `src/polling.ts`. -/
def isFailed (result : PollingResult) : Bool :=
  decide (result.status = Status.failed) || decide (result.status = Status.timeout)

/-- The observable outcome of the post-polling section of `run()`
in `src/main.ts`. -/
structure ActionOutcome where
  statusOutput : Status
  bundleVersionOutput : Option String
  deploymentUrlOutput : Option String
  failed : Bool
  failureMessage : Option String
deriving DecidableEq, Repr

/-- The post-polling section of `run()` in `src/main.ts` (lines
178-198): sets the `status` output and the optional `bundle-version` /
`deployment-url` outputs, and marks the action failed via
`core.setFailed` exactly when `isFailed(result)`. -/
def runAfterPoll (result : PollingResult) : ActionOutcome :=
  { statusOutput := result.status,
    bundleVersionOutput := result.bundleVersion,
    deploymentUrlOutput := result.deploymentUrl,
    failed := isFailed result,
    failureMessage :=
      if isFailed result then
        some ("Deployment failed: " ++
          orElseStr result.errorMessage "Deployment failed without error message")
      else none }

/-- Decimal value of an ASCII digit character. -/
def digitVal (c : Char) : Option Nat :=
  if 48 ≤ c.toNat ∧ c.toNat ≤ 57 then some (c.toNat - 48) else none

/-- Reads a list of decimal digits as a number, `none` on a non-digit. -/
def natOfDigits (cs : List Char) : Option Nat :=
  cs.foldl (fun acc c => acc.bind fun n => (digitVal c).map fun d => n * 10 + d) (some 0)

/-- A concrete timestamp parser (decimal milliseconds) used to
instantiate the abstract `parseTs` parameter on concrete inputs. -/
def tsParse (s : String) : Option Int :=
  if s.data.isEmpty then none else (natOfDigits s.data).map Int.ofNat

/-! ## Helper lemmas -/

lemma handleErrorLevel_state (parseTs : String → Option Int) (cfg : PollingConfig)
    (s1 : PollState) (log : LogEntry) :
    (handleErrorLevel parseTs cfg s1 log).state = s1 := rfl

lemma handleErrorLevel_result (parseTs : String → Option Int) (cfg : PollingConfig)
    (s1 : PollState) (log : LogEntry) :
    (handleErrorLevel parseTs cfg s1 log).result =
      some { status := Status.failed,
             errorMessage :=
               some (((log.metadata.bind LogMetadata.error).orElse
                 fun _ => log.metadata.bind LogMetadata.message).getD log.message),
             phases := s1.phases,
             phaseTimings :=
               some (calculatePhaseDurations parseTs s1.phaseTimings s1.phases none) } := rfl

lemma handleComplete_state (parseTs : String → Option Int) (cfg : PollingConfig)
    (s1 : PollState) (log : LogEntry) (md : LogMetadata) :
    (handleComplete parseTs cfg s1 log md).state = s1 := rfl

lemma handleComplete_result (parseTs : String → Option Int) (cfg : PollingConfig)
    (s1 : PollState) (log : LogEntry) (md : LogMetadata) :
    (handleComplete parseTs cfg s1 log md).result =
      some { status := Status.success, durationMs := md.duration_ms,
             phases := s1.phases,
             phaseTimings :=
               some (calculatePhaseDurations parseTs s1.phaseTimings s1.phases
                 (some (orElseStr md.timestamp log.timestamp))),
             bundleVersion := md.details.bind MetaDetails.bundle_version,
             deploymentUrl := md.details.bind MetaDetails.deployment_url } := rfl

lemma handleFailed_state (parseTs : String → Option Int) (cfg : PollingConfig)
    (s1 : PollState) (log : LogEntry) (md : LogMetadata) :
    (handleFailed parseTs cfg s1 log md).state = s1 := rfl

lemma handleFailed_result (parseTs : String → Option Int) (cfg : PollingConfig)
    (s1 : PollState) (log : LogEntry) (md : LogMetadata) :
    (handleFailed parseTs cfg s1 log md).result =
      some { status := Status.failed,
             errorMessage := some (orElseStr md.message "Deployment failed without error message"),
             phases := s1.phases,
             phaseTimings :=
               some (calculatePhaseDurations parseTs s1.phaseTimings s1.phases
                 (some (orElseStr md.timestamp log.timestamp))) } := rfl

lemma handlePhaseChange_noPhase (parseTs : String → Option Int) (cfg : PollingConfig)
    (s1 : PollState) (log : LogEntry) (md : LogMetadata)
    (h : md.details.bind MetaDetails.phase = none) :
    handlePhaseChange parseTs cfg s1 log md = ⟨s1, [], none⟩ := by
  simp only [handlePhaseChange, h]

lemma handlePhaseChange_skip (parseTs : String → Option Int) (cfg : PollingConfig)
    (s1 : PollState) (log : LogEntry) (md : LogMetadata) (phase : String)
    (h : md.details.bind MetaDetails.phase = some phase)
    (hskip : (phase == "" || s1.seenPhases.contains phase) = true) :
    handlePhaseChange parseTs cfg s1 log md = ⟨s1, [], none⟩ := by
  simp only [handlePhaseChange, h, hskip, if_true]

lemma handlePhaseChange_new_state (parseTs : String → Option Int) (cfg : PollingConfig)
    (s1 : PollState) (log : LogEntry) (md : LogMetadata) (phase : String)
    (h : md.details.bind MetaDetails.phase = some phase)
    (hnew : (phase == "" || s1.seenPhases.contains phase) = false) :
    (handlePhaseChange parseTs cfg s1 log md).state =
      { s1 with
        seenPhases := s1.seenPhases ++ [phase],
        phases := s1.phases ++ [phase],
        phaseTimings := recordSet s1.phaseTimings phase
          ⟨orElseStr md.timestamp log.timestamp, none⟩ } := by
  simp only [handlePhaseChange, h, hnew, Bool.false_eq_true, if_false]

lemma handlePhaseChange_new_result (parseTs : String → Option Int) (cfg : PollingConfig)
    (s1 : PollState) (log : LogEntry) (md : LogMetadata) (phase : String)
    (h : md.details.bind MetaDetails.phase = some phase)
    (hnew : (phase == "" || s1.seenPhases.contains phase) = false) :
    (handlePhaseChange parseTs cfg s1 log md).result = none := by
  simp only [handlePhaseChange, h, hnew, Bool.false_eq_true, if_false]

lemma processLog_seen (parseTs : String → Option Int) (cfg : PollingConfig)
    (s : PollState) (log : LogEntry)
    (h : s.seenLogIds.contains (getLogId log) = true) :
    processLog parseTs cfg s log = ⟨s, [], none⟩ := by
  simp only [processLog, h, if_true]

lemma processLog_fresh (parseTs : String → Option Int) (cfg : PollingConfig)
    (s : PollState) (log : LogEntry)
    (h : s.seenLogIds.contains (getLogId log) = false) :
    processLog parseTs cfg s log =
      ⟨(processBranch parseTs cfg
          { s with seenLogIds := s.seenLogIds ++ [getLogId log] } log).state,
       logLineOutput cfg log ++
         (processBranch parseTs cfg
           { s with seenLogIds := s.seenLogIds ++ [getLogId log] } log).output,
       (processBranch parseTs cfg
         { s with seenLogIds := s.seenLogIds ++ [getLogId log] } log).result⟩ := by
  simp only [processLog, h, Bool.false_eq_true, if_false]

lemma recordSet_lookup_ne (m : PhaseTimings) (k q : String) (v : PhaseTiming)
    (h : q ≠ k) : (recordSet m k v).lookup q = m.lookup q := by
  have hbeq : (q == k) = false := beq_eq_false_iff_ne.mpr h
  induction m with
  | nil => simp [recordSet, List.lookup, hbeq]
  | cons kv rest ih =>
    obtain ⟨k', v'⟩ := kv
    by_cases hk : k' = k
    · subst hk
      simp [recordSet, List.lookup, hbeq]
    · simp only [recordSet, if_neg hk, List.lookup]
      cases hq : (q == k') <;> simp [hq, ih]

lemma handlePhaseChange_state_cases (parseTs : String → Option Int) (cfg : PollingConfig)
    (s1 : PollState) (log : LogEntry) (md : LogMetadata) :
    (handlePhaseChange parseTs cfg s1 log md).state = s1 ∨
    ∃ phase ts, (phase == "" || s1.seenPhases.contains phase) = false ∧
      (handlePhaseChange parseTs cfg s1 log md).state =
        { s1 with
          seenPhases := s1.seenPhases ++ [phase],
          phases := s1.phases ++ [phase],
          phaseTimings := recordSet s1.phaseTimings phase ⟨ts, none⟩ } := by
  cases h : md.details.bind MetaDetails.phase with
  | none => left; rw [handlePhaseChange_noPhase parseTs cfg s1 log md h]
  | some phase =>
    cases hc : (phase == "" || s1.seenPhases.contains phase) with
    | true => left; rw [handlePhaseChange_skip parseTs cfg s1 log md phase h hc]
    | false =>
      right
      exact ⟨phase, orElseStr md.timestamp log.timestamp, hc,
        handlePhaseChange_new_state parseTs cfg s1 log md phase h hc⟩

lemma processBranch_state_cases (parseTs : String → Option Int) (cfg : PollingConfig)
    (s1 : PollState) (log : LogEntry) :
    (processBranch parseTs cfg s1 log).state = s1 ∨
    ∃ phase ts, (phase == "" || s1.seenPhases.contains phase) = false ∧
      (processBranch parseTs cfg s1 log).state =
        { s1 with
          seenPhases := s1.seenPhases ++ [phase],
          phases := s1.phases ++ [phase],
          phaseTimings := recordSet s1.phaseTimings phase ⟨ts, none⟩ } := by
  unfold processBranch
  by_cases hl : toLowerCase log.level = "error"
  · left; simp [hl, handleErrorLevel_state]
  · simp only [beq_iff_eq, hl, if_false]
    cases hm : log.metadata with
    | none => left; rfl
    | some md =>
      cases ha : md.action with
      | none => left; simp [ha]
      | some act =>
        simp only [ha]
        by_cases he : act = ""
        · left; simp [he]
        · simp only [he, if_false]
          by_cases hp : act = "report_phase_change_success"
          · simp only [hp, if_true]
            exact handlePhaseChange_state_cases parseTs cfg s1 log md
          · simp only [hp, if_false]
            by_cases hcm : act = "pipeline_complete"
            · left; simp [hcm, handleComplete_state]
            · simp only [hcm, if_false]
              by_cases hf : act = "pipeline_failed" ∨ act = "pipeline_error"
              · have hf' : (act == "pipeline_failed" || act == "pipeline_error") = true := by
                  rcases hf with h | h <;> simp [h]
                left; simp [hf', handleFailed_state]
              · obtain ⟨h1, h2⟩ := not_or.mp hf
                have hf' : (act == "pipeline_failed" || act == "pipeline_error") = false := by
                  simp [h1, h2]
                left; simp [hf']

lemma processBranch_state_seenLogIds (parseTs : String → Option Int) (cfg : PollingConfig)
    (s1 : PollState) (log : LogEntry) :
    (processBranch parseTs cfg s1 log).state.seenLogIds = s1.seenLogIds := by
  rcases processBranch_state_cases parseTs cfg s1 log with h | ⟨phase, ts, _, h⟩ <;> rw [h]

lemma processLog_state_seenLogIds (parseTs : String → Option Int) (cfg : PollingConfig)
    (s : PollState) (log : LogEntry) :
    (processLog parseTs cfg s log).state.seenLogIds = s.seenLogIds ∨
    (processLog parseTs cfg s log).state.seenLogIds = s.seenLogIds ++ [getLogId log] := by
  cases h : s.seenLogIds.contains (getLogId log) with
  | true => left; rw [processLog_seen parseTs cfg s log h]
  | false =>
    right
    rw [processLog_fresh parseTs cfg s log h]
    exact processBranch_state_seenLogIds parseTs cfg _ log

lemma processLog_seen_sub (parseTs : String → Option Int) (cfg : PollingConfig)
    (s : PollState) (log : LogEntry) :
    s.seenLogIds ⊆ (processLog parseTs cfg s log).state.seenLogIds := by
  rcases processLog_state_seenLogIds parseTs cfg s log with h | h <;> rw [h]
  · exact List.Subset.refl _
  · exact List.subset_append_left _ _

lemma processLogs_seen_sub (parseTs : String → Option Int) (cfg : PollingConfig)
    (logs : List LogEntry) (s : PollState) :
    s.seenLogIds ⊆ (processLogs parseTs cfg s logs).state.seenLogIds := by
  induction logs generalizing s with
  | nil => exact List.Subset.refl _
  | cons a rest ih =>
    simp only [processLogs]
    cases ho : (processLog parseTs cfg s a).result with
    | some r =>
      simp only [ho]
      exact processLog_seen_sub parseTs cfg s a
    | none =>
      simp only [ho]
      exact fun x hx =>
        ih (processLog parseTs cfg s a).state (processLog_seen_sub parseTs cfg s a hx)

lemma pollStep_seen_sub (parseTs : String → Option Int) (cfg : PollingConfig)
    (T : Nat) (s : PollState) (it : Iteration) :
    s.seenLogIds ⊆ (pollStep parseTs cfg T s it).state.seenLogIds := by
  unfold pollStep
  by_cases ht : T ≤ it.elapsed
  · simp only [ht, if_true]
    exact List.Subset.refl _
  · simp only [ht, if_false]
    cases it.fetch with
    | fail message =>
      cases ha : isPermanentAuthError message <;> simp [ha]
    | ok logs => exact processLogs_seen_sub parseTs cfg logs s

lemma pollRun_seen_sub (parseTs : String → Option Int) (cfg : PollingConfig)
    (T : Nat) (trace : List Iteration) (s : PollState) :
    s.seenLogIds ⊆ (pollRun parseTs cfg T s trace).state.seenLogIds := by
  induction trace generalizing s with
  | nil => exact List.Subset.refl _
  | cons it rest ih =>
    simp only [pollRun]
    cases ho : (pollStep parseTs cfg T s it).result with
    | some r =>
      simp only [ho]
      exact pollStep_seen_sub parseTs cfg T s it
    | none =>
      simp only [ho]
      exact fun x hx =>
        ih (pollStep parseTs cfg T s it).state (pollStep_seen_sub parseTs cfg T s it hx)

lemma processLogs_cons_some (parseTs : String → Option Int) (cfg : PollingConfig)
    (s : PollState) (log : LogEntry) (rest : List LogEntry) (r : PollingResult)
    (ho : (processLog parseTs cfg s log).result = some r) :
    processLogs parseTs cfg s (log :: rest) =
      ⟨(processLog parseTs cfg s log).state, (processLog parseTs cfg s log).output, some r⟩ := by
  simp only [processLogs, ho]

lemma processLogs_cons_none (parseTs : String → Option Int) (cfg : PollingConfig)
    (s : PollState) (log : LogEntry) (rest : List LogEntry)
    (ho : (processLog parseTs cfg s log).result = none) :
    processLogs parseTs cfg s (log :: rest) =
      ⟨(processLogs parseTs cfg (processLog parseTs cfg s log).state rest).state,
       (processLog parseTs cfg s log).output ++
         (processLogs parseTs cfg (processLog parseTs cfg s log).state rest).output,
       (processLogs parseTs cfg (processLog parseTs cfg s log).state rest).result⟩ := by
  simp only [processLogs, ho]

lemma processLogs_skip_dup (parseTs : String → Option Int) (cfg : PollingConfig)
    (s : PollState) (log : LogEntry) (rest : List LogEntry)
    (h : s.seenLogIds.contains (getLogId log) = true) :
    processLogs parseTs cfg s (log :: rest) = processLogs parseTs cfg s rest := by
  have he := processLog_seen parseTs cfg s log h
  rw [processLogs_cons_none parseTs cfg s log rest (by rw [he])]
  rw [he]
  simp

lemma contains_of_sub {l l' : List String} {a : String}
    (hsub : l ⊆ l') (h : l.contains a = true) : l'.contains a = true := by
  have h' : a ∈ l := List.mem_of_elem_eq_true h
  exact List.elem_eq_true_of_mem (hsub h')

lemma processLogs_dup_removed (parseTs : String → Option Int) (cfg : PollingConfig)
    (s : PollState) (log : LogEntry) (pre post : List LogEntry)
    (h : s.seenLogIds.contains (getLogId log) = true) :
    processLogs parseTs cfg s (pre ++ log :: post) = processLogs parseTs cfg s (pre ++ post) := by
  induction pre generalizing s with
  | nil =>
    simpa using processLogs_skip_dup parseTs cfg s log post h
  | cons a pre ih =>
    simp only [List.cons_append]
    cases ho : (processLog parseTs cfg s a).result with
    | some r =>
      rw [processLogs_cons_some parseTs cfg s a _ r ho,
        processLogs_cons_some parseTs cfg s a _ r ho]
    | none =>
      rw [processLogs_cons_none parseTs cfg s a _ ho,
        processLogs_cons_none parseTs cfg s a _ ho]
      rw [ih _ (contains_of_sub (processLog_seen_sub parseTs cfg s a) h)]

lemma pollRun_cons_some (parseTs : String → Option Int) (cfg : PollingConfig)
    (T : Nat) (s : PollState) (it : Iteration) (rest : List Iteration) (r : PollingResult)
    (h : (pollStep parseTs cfg T s it).result = some r) :
    pollRun parseTs cfg T s (it :: rest) =
      ⟨(pollStep parseTs cfg T s it).state, (pollStep parseTs cfg T s it).output, some r,
       if T ≤ it.elapsed then 0 else 1⟩ := by
  simp only [pollRun, h]

lemma pollRun_cons_none (parseTs : String → Option Int) (cfg : PollingConfig)
    (T : Nat) (s : PollState) (it : Iteration) (rest : List Iteration)
    (h : (pollStep parseTs cfg T s it).result = none) :
    pollRun parseTs cfg T s (it :: rest) =
      ⟨(pollRun parseTs cfg T (pollStep parseTs cfg T s it).state rest).state,
       (pollStep parseTs cfg T s it).output ++
         (pollRun parseTs cfg T (pollStep parseTs cfg T s it).state rest).output,
       (pollRun parseTs cfg T (pollStep parseTs cfg T s it).state rest).result,
       (if T ≤ it.elapsed then 0 else 1) +
         (pollRun parseTs cfg T (pollStep parseTs cfg T s it).state rest).fetchCalls⟩ := by
  simp only [pollRun, h]

/-- Claim C2: deduplication is idempotent — a `LogEntry` whose id is
already in the seen-set is a complete no-op (state, output and result),
delivering it again inside a later batch leaves the batch's entire
outcome unchanged, and the seen-set only ever grows (per entry and over
a whole run). -/
theorem dedupIdempotent (parseTs : String → Option Int) (cfg : PollingConfig)
    (s : PollState) (log : LogEntry) (pre post : List LogEntry)
    (hseen : s.seenLogIds.contains (getLogId log) = true) :
    processLog parseTs cfg s log = ⟨s, [], none⟩
  ∧ processLogs parseTs cfg s (pre ++ log :: post) = processLogs parseTs cfg s (pre ++ post)
  ∧ (∀ e : LogEntry, s.seenLogIds ⊆ (processLog parseTs cfg s e).state.seenLogIds)
  ∧ (∀ (T : Nat) (trace : List Iteration),
      s.seenLogIds ⊆ (pollRun parseTs cfg T s trace).state.seenLogIds) :=
  ⟨processLog_seen parseTs cfg s log hseen,
   processLogs_dup_removed parseTs cfg s log pre post hseen,
   fun e => processLog_seen_sub parseTs cfg s e,
   fun T trace => pollRun_seen_sub parseTs cfg T trace s⟩

/-- Witness for C2 at a concrete duplicated entry. -/
theorem dedupIdempotentWitness :
    processLog tsParse {} ⟨["7-3abcabc-"], [], [], []⟩
        { timestamp := "7", level := "info", message := "abc" } =
      ⟨⟨["7-3abcabc-"], [], [], []⟩, [], none⟩
  ∧ processLogs tsParse {} ⟨["7-3abcabc-"], [], [], []⟩
        ([] ++ { timestamp := "7", level := "info", message := "abc" } :: []) =
      processLogs tsParse {} ⟨["7-3abcabc-"], [], [], []⟩ ([] ++ []) :=
  ⟨(dedupIdempotent tsParse {} ⟨["7-3abcabc-"], [], [], []⟩
      { timestamp := "7", level := "info", message := "abc" } [] [] (by decide)).1,
   (dedupIdempotent tsParse {} ⟨["7-3abcabc-"], [], [], []⟩
      { timestamp := "7", level := "info", message := "abc" } [] [] (by decide)).2.1⟩

/-- Claim C3: a fetch error whose message carries a permanent
authorization marker ends the run immediately with a terminal failure
carrying the remediation message and exactly one fetch call regardless
of the remaining trace; any other fetch error is transient — a warning
is emitted, the state is unchanged and no terminal result is
produced. -/
theorem fetchErrorClassification (parseTs : String → Option Int) (cfg : PollingConfig)
    (T : Nat) (s : PollState) (elapsed : Nat) (msg : String) (rest : List Iteration)
    (hlt : elapsed < T) :
    (isPermanentAuthError msg = true →
      pollRun parseTs cfg T s (⟨elapsed, Fetch.fail msg⟩ :: rest) =
        ⟨s, [OutputEvent.authError],
         some { status := Status.failed, errorMessage := some permScopeMessage,
                phases := s.phases,
                phaseTimings :=
                  some (calculatePhaseDurations parseTs s.phaseTimings s.phases none) },
         1⟩)
  ∧ (isPermanentAuthError msg = false →
      pollStep parseTs cfg T s ⟨elapsed, Fetch.fail msg⟩ =
        ⟨s, [OutputEvent.fetchWarn msg], none⟩) := by
  have hnle : ¬ (T ≤ elapsed) := not_le.mpr hlt
  constructor
  · intro ha
    have hstep : pollStep parseTs cfg T s ⟨elapsed, Fetch.fail msg⟩ =
        ⟨s, [OutputEvent.authError],
         some { status := Status.failed, errorMessage := some permScopeMessage,
                phases := s.phases,
                phaseTimings :=
                  some (calculatePhaseDurations parseTs s.phaseTimings s.phases none) }⟩ := by
      unfold pollStep
      simp [hnle, ha]
    rw [pollRun_cons_some parseTs cfg T s _ rest _ (by rw [hstep])]
    rw [hstep]
    simp [hnle]
  · intro ha
    unfold pollStep
    simp [hnle, ha]

/-- Witness for C3 at a concrete forbidden-fetch failure. -/
theorem fetchErrorClassificationWitness :
    pollRun tsParse {} 600000 initState [⟨0, Fetch.fail "API request failed: Forbidden"⟩] =
      ⟨initState, [OutputEvent.authError],
       some { status := Status.failed, errorMessage := some permScopeMessage,
              phases := [], phaseTimings := some [] },
       1⟩ :=
  (fetchErrorClassification tsParse {} 600000 initState 0
    "API request failed: Forbidden" [] (by decide)).1 (by decide)

lemma orElse_getD (o1 o2 : Option String) (d : String) :
    (o1.orElse fun _ => o2).getD d = o1.getD (o2.getD d) := by
  cases o1 <;> rfl

lemma processBranch_error (parseTs : String → Option Int) (cfg : PollingConfig)
    (s1 : PollState) (log : LogEntry) (hl : toLowerCase log.level = "error") :
    processBranch parseTs cfg s1 log = handleErrorLevel parseTs cfg s1 log := by
  unfold processBranch
  simp [hl]

lemma processBranch_phase (parseTs : String → Option Int) (cfg : PollingConfig)
    (s1 : PollState) (log : LogEntry) (md : LogMetadata)
    (hl : ¬ toLowerCase log.level = "error") (hm : log.metadata = some md)
    (ha : md.action = some "report_phase_change_success") :
    processBranch parseTs cfg s1 log = handlePhaseChange parseTs cfg s1 log md := by
  unfold processBranch
  simp [hl, hm, ha]

lemma processBranch_complete (parseTs : String → Option Int) (cfg : PollingConfig)
    (s1 : PollState) (log : LogEntry) (md : LogMetadata)
    (hl : ¬ toLowerCase log.level = "error") (hm : log.metadata = some md)
    (ha : md.action = some "pipeline_complete") :
    processBranch parseTs cfg s1 log = handleComplete parseTs cfg s1 log md := by
  unfold processBranch
  simp [hl, hm, ha]

lemma processBranch_failedAction (parseTs : String → Option Int) (cfg : PollingConfig)
    (s1 : PollState) (log : LogEntry) (md : LogMetadata)
    (hl : ¬ toLowerCase log.level = "error") (hm : log.metadata = some md)
    (ha : md.action = some "pipeline_failed" ∨ md.action = some "pipeline_error") :
    processBranch parseTs cfg s1 log = handleFailed parseTs cfg s1 log md := by
  unfold processBranch
  rcases ha with ha | ha <;> simp [hl, hm, ha]

/-- Claim C1: a fresh entry whose severity level, compared
case-insensitively, equals "error" always yields a terminal failure,
whatever its `metadata.action` says, and the failure message comes from
`metadata.error`, else `metadata.message`, else the entry message, in
that priority order. -/
theorem errorLevelAlwaysFails (parseTs : String → Option Int) (cfg : PollingConfig)
    (s : PollState) (log : LogEntry)
    (hfresh : s.seenLogIds.contains (getLogId log) = false)
    (herr : toLowerCase log.level = "error") :
    (processLog parseTs cfg s log).result =
      some { status := Status.failed,
             errorMessage := some ((log.metadata.bind LogMetadata.error).getD
               ((log.metadata.bind LogMetadata.message).getD log.message)),
             phases := s.phases,
             phaseTimings :=
               some (calculatePhaseDurations parseTs s.phaseTimings s.phases none) } := by
  rw [processLog_fresh parseTs cfg s log hfresh]
  show (processBranch parseTs cfg _ log).result = _
  rw [processBranch_error parseTs cfg _ log herr, handleErrorLevel_result, orElse_getD]

/-- Witness for C1: an ERROR-level entry carrying a success action is
still classified as terminal failure, with the `metadata.error`
message. -/
theorem errorLevelAlwaysFailsWitness :
    (processLog tsParse {} initState
      { timestamp := "9", level := "ERROR", message := "boom",
        metadata := some { action := some "pipeline_complete",
                           error := some "explicit failure" } }).result =
      some { status := Status.failed, errorMessage := some "explicit failure",
             phases := [], phaseTimings := some [] } :=
  errorLevelAlwaysFails tsParse {} initState
    { timestamp := "9", level := "ERROR", message := "boom",
      metadata := some { action := some "pipeline_complete",
                         error := some "explicit failure" } }
    (by decide) (by decide)

/-- The `phase("sync")` entry of the spec's success scenario. -/
def scenarioPhaseLog : LogEntry :=
  { timestamp := "1000", level := "info", message := "phase sync",
    metadata := some { action := some "report_phase_change_success",
                       details := some { phase := some "sync" } } }

/-- The `pipeline_complete(duration_ms=4200, bundle_version="v7")`
entry of the spec's success scenario. -/
def scenarioCompleteLog : LogEntry :=
  { timestamp := "5200", level := "info", message := "done",
    metadata := some { action := some "pipeline_complete",
                       duration_ms := some 4200,
                       details := some { bundle_version := some "v7" } } }

set_option maxRecDepth 4000 in
/-- Claim C6: a fresh `pipeline_complete` entry yields a success result
that preserves the accumulated phases (count and first-observed order)
and carries the optional payload fields through; concretely, the batch
`[phase("sync"), pipeline_complete(duration_ms=4200, bundle_version="v7")]`
produces `{status: success, durationMs: 4200, phases: ["sync"],
bundleVersion: "v7"}`. -/
theorem pipelineCompleteSuccess (parseTs : String → Option Int) (cfg : PollingConfig)
    (s : PollState) (log : LogEntry) (md : LogMetadata)
    (hfresh : s.seenLogIds.contains (getLogId log) = false)
    (hlvl : ¬ toLowerCase log.level = "error")
    (hmd : log.metadata = some md)
    (hact : md.action = some "pipeline_complete") :
    ((processLog parseTs cfg s log).result =
      some { status := Status.success, durationMs := md.duration_ms,
             phases := s.phases,
             phaseTimings :=
               some (calculatePhaseDurations parseTs s.phaseTimings s.phases
                 (some (orElseStr md.timestamp log.timestamp))),
             bundleVersion := md.details.bind MetaDetails.bundle_version,
             deploymentUrl := md.details.bind MetaDetails.deployment_url }
    ∧ (processLog parseTs cfg s log).state.phases = s.phases)
  ∧ (pollForCompletion tsParse {} 10
      [⟨0, Fetch.ok [scenarioPhaseLog, scenarioCompleteLog]⟩]).result =
      some { status := Status.success, durationMs := some 4200, phases := ["sync"],
             phaseTimings := some [("sync", ⟨"1000", some 4200⟩)],
             bundleVersion := some "v7", deploymentUrl := none } := by
  constructor
  · rw [processLog_fresh parseTs cfg s log hfresh]
    constructor
    · show (processBranch parseTs cfg _ log).result = _
      rw [processBranch_complete parseTs cfg _ log md hlvl hmd hact, handleComplete_result]
    · show (processBranch parseTs cfg _ log).state.phases = s.phases
      rw [processBranch_complete parseTs cfg _ log md hlvl hmd hact, handleComplete_state]
  · decide

/-- Witness for C6 at the spec's concrete scenario inputs. -/
theorem pipelineCompleteSuccessWitness :
    (processLog tsParse {}
        ⟨[getLogId scenarioPhaseLog], ["sync"], ["sync"], [("sync", ⟨"1000", none⟩)]⟩
        scenarioCompleteLog).result =
      some { status := Status.success, durationMs := some 4200, phases := ["sync"],
             phaseTimings := some [("sync", ⟨"1000", some 4200⟩)],
             bundleVersion := some "v7", deploymentUrl := none } :=
  ((pipelineCompleteSuccess tsParse {}
      ⟨[getLogId scenarioPhaseLog], ["sync"], ["sync"], [("sync", ⟨"1000", none⟩)]⟩
      scenarioCompleteLog
      { action := some "pipeline_complete", duration_ms := some 4200,
        details := some { bundle_version := some "v7" } }
      (by decide) (by decide) rfl rfl).1).1

/-- Claim C7: a phase name is accepted at most once per session — a
transition for an already-observed phase leaves the phase list, the
phase order and all recorded timings unchanged; first observation of a
new phase appends it with its `startedAt` recorded; and no processed
entry ever changes the recorded timing of an already-observed phase. -/
theorem phaseObservedOnce (parseTs : String → Option Int) (cfg : PollingConfig)
    (s : PollState) (log : LogEntry) (md : LogMetadata) (p : String)
    (hfresh : s.seenLogIds.contains (getLogId log) = false)
    (hlvl : ¬ toLowerCase log.level = "error")
    (hmd : log.metadata = some md)
    (hact : md.action = some "report_phase_change_success")
    (hp : md.details.bind MetaDetails.phase = some p) :
    (s.seenPhases.contains p = true →
      (processLog parseTs cfg s log).state.phases = s.phases
      ∧ (processLog parseTs cfg s log).state.seenPhases = s.seenPhases
      ∧ (processLog parseTs cfg s log).state.phaseTimings = s.phaseTimings
      ∧ (processLog parseTs cfg s log).result = none)
  ∧ (s.seenPhases.contains p = false → p ≠ "" →
      (processLog parseTs cfg s log).state.phases = s.phases ++ [p]
      ∧ (processLog parseTs cfg s log).state.seenPhases = s.seenPhases ++ [p]
      ∧ (processLog parseTs cfg s log).state.phaseTimings =
          recordSet s.phaseTimings p ⟨orElseStr md.timestamp log.timestamp, none⟩
      ∧ (processLog parseTs cfg s log).result = none)
  ∧ (∀ (e : LogEntry) (q : String), s.seenPhases.contains q = true →
      ((processLog parseTs cfg s e).state.phaseTimings).lookup q =
        s.phaseTimings.lookup q) := by
  refine ⟨fun hq => ?_, fun hq hne => ?_, fun e q hq => ?_⟩
  · rw [processLog_fresh parseTs cfg s log hfresh]
    have hb : processBranch parseTs cfg
        { s with seenLogIds := s.seenLogIds ++ [getLogId log] } log =
          ⟨{ s with seenLogIds := s.seenLogIds ++ [getLogId log] }, [], none⟩ :=
      (processBranch_phase parseTs cfg _ log md hlvl hmd hact).trans
        (handlePhaseChange_skip parseTs cfg _ log md p hp
          (by show (p == "" || s.seenPhases.contains p) = true
              rw [hq, Bool.or_true]))
    rw [hb]
    exact ⟨rfl, rfl, rfl, rfl⟩
  · rw [processLog_fresh parseTs cfg s log hfresh]
    have hcond : (p == "" ||
        ({ s with seenLogIds := s.seenLogIds ++ [getLogId log] } : PollState).seenPhases.contains p)
          = false := by
      show (p == "" || s.seenPhases.contains p) = false
      rw [hq, beq_eq_false_iff_ne.mpr hne, Bool.or_self]
    refine ⟨?_, ?_, ?_, ?_⟩
    · show (processBranch parseTs cfg _ log).state.phases = _
      rw [processBranch_phase parseTs cfg _ log md hlvl hmd hact,
        handlePhaseChange_new_state parseTs cfg _ log md p hp hcond]
    · show (processBranch parseTs cfg _ log).state.seenPhases = _
      rw [processBranch_phase parseTs cfg _ log md hlvl hmd hact,
        handlePhaseChange_new_state parseTs cfg _ log md p hp hcond]
    · show (processBranch parseTs cfg _ log).state.phaseTimings = _
      rw [processBranch_phase parseTs cfg _ log md hlvl hmd hact,
        handlePhaseChange_new_state parseTs cfg _ log md p hp hcond]
    · show (processBranch parseTs cfg _ log).result = _
      rw [processBranch_phase parseTs cfg _ log md hlvl hmd hact,
        handlePhaseChange_new_result parseTs cfg _ log md p hp hcond]
  · cases hsn : s.seenLogIds.contains (getLogId e) with
    | true => rw [processLog_seen parseTs cfg s e hsn]
    | false =>
      rw [processLog_fresh parseTs cfg s e hsn]
      show ((processBranch parseTs cfg _ e).state.phaseTimings).lookup q = _
      rcases processBranch_state_cases parseTs cfg
          { s with seenLogIds := s.seenLogIds ++ [getLogId e] } e with
        h | ⟨phase, ts, hc, h⟩
      · rw [h]
      · rw [h]
        have hphq : phase ≠ q := by
          intro hcontra
          subst hcontra
          have : s.seenPhases.contains phase = false := (Bool.or_eq_false_iff.mp hc).2
          rw [this] at hq
          exact Bool.false_ne_true hq
        exact recordSet_lookup_ne s.phaseTimings phase q _ (fun hqq => hphq hqq.symm)

/-- Witness for C7: first observation appends the phase, a duplicate
transition is a no-op. -/
theorem phaseObservedOnceWitness :
    ((processLog tsParse {} initState scenarioPhaseLog).state.phases = [] ++ ["sync"]
      ∧ (processLog tsParse {} initState scenarioPhaseLog).state.seenPhases = [] ++ ["sync"]
      ∧ (processLog tsParse {} initState scenarioPhaseLog).state.phaseTimings =
          recordSet [] "sync" ⟨"1000", none⟩
      ∧ (processLog tsParse {} initState scenarioPhaseLog).result = none)
  ∧ ((processLog tsParse {} ⟨["x"], ["sync"], ["sync"], [("sync", ⟨"1000", none⟩)]⟩
        scenarioPhaseLog).state.phases = ["sync"]
      ∧ (processLog tsParse {} ⟨["x"], ["sync"], ["sync"], [("sync", ⟨"1000", none⟩)]⟩
          scenarioPhaseLog).state.seenPhases = ["sync"]
      ∧ (processLog tsParse {} ⟨["x"], ["sync"], ["sync"], [("sync", ⟨"1000", none⟩)]⟩
          scenarioPhaseLog).state.phaseTimings = [("sync", ⟨"1000", none⟩)]
      ∧ (processLog tsParse {} ⟨["x"], ["sync"], ["sync"], [("sync", ⟨"1000", none⟩)]⟩
          scenarioPhaseLog).result = none) :=
  ⟨(phaseObservedOnce tsParse {} initState scenarioPhaseLog
      { action := some "report_phase_change_success",
        details := some { phase := some "sync" } } "sync"
      (by decide) (by decide) rfl rfl rfl).2.1 (by decide) (by decide),
   (phaseObservedOnce tsParse {} ⟨["x"], ["sync"], ["sync"], [("sync", ⟨"1000", none⟩)]⟩
      scenarioPhaseLog
      { action := some "report_phase_change_success",
        details := some { phase := some "sync" } } "sync"
      (by decide) (by decide) rfl rfl rfl).1 (by decide)⟩

lemma processLogs_append_none (parseTs : String → Option Int) (cfg : PollingConfig)
    (xs ys : List LogEntry) (s s' : PollState) (out : List OutputEvent)
    (h : processLogs parseTs cfg s xs = ⟨s', out, none⟩) :
    processLogs parseTs cfg s (xs ++ ys) =
      ⟨(processLogs parseTs cfg s' ys).state,
       out ++ (processLogs parseTs cfg s' ys).output,
       (processLogs parseTs cfg s' ys).result⟩ := by
  induction xs generalizing s out with
  | nil =>
    simp only [processLogs, StepOut.mk.injEq] at h
    obtain ⟨hs, hout, -⟩ := h
    subst hs
    subst hout
    simp only [List.nil_append]
  | cons a xs ih =>
    cases ho : (processLog parseTs cfg s a).result with
    | some r0 =>
      rw [processLogs_cons_some parseTs cfg s a xs r0 ho] at h
      exact absurd (congrArg StepOut.result h) (by simp)
    | none =>
      rw [processLogs_cons_none parseTs cfg s a xs ho] at h
      rcases hE : processLogs parseTs cfg (processLog parseTs cfg s a).state xs
        with ⟨s0, out0, res0⟩
      rw [hE] at h
      simp only [StepOut.mk.injEq] at h
      obtain ⟨hs0, hout0, hres0⟩ := h
      subst hs0
      subst hres0
      rw [List.cons_append, processLogs_cons_none parseTs cfg s a (xs ++ ys) ho,
        ih _ _ hE]
      rw [← hout0]
      simp [List.append_assoc]

/-- Claim C8: inside one fetched batch the first entry yielding a
terminal classification ends the session at once — the state, output
and result are those accumulated up to and including that entry,
independent of everything after it in the batch, and at the run level
no further fetch occurs (exactly one fetch call, whatever the remaining
trace holds). -/
theorem firstTerminalStops (parseTs : String → Option Int) (cfg : PollingConfig)
    (T : Nat) (s s' s'' : PollState) (pre post : List LogEntry) (log : LogEntry)
    (out out2 : List OutputEvent) (r : PollingResult)
    (h1 : processLogs parseTs cfg s pre = ⟨s', out, none⟩)
    (h2 : processLog parseTs cfg s' log = ⟨s'', out2, some r⟩) :
    processLogs parseTs cfg s (pre ++ log :: post) = ⟨s'', out ++ out2, some r⟩
  ∧ ∀ (elapsed : Nat) (rest : List Iteration), elapsed < T →
      pollRun parseTs cfg T s (⟨elapsed, Fetch.ok (pre ++ log :: post)⟩ :: rest) =
        ⟨s'', out ++ out2, some r, 1⟩ := by
  have hbatch : processLogs parseTs cfg s (pre ++ log :: post) = ⟨s'', out ++ out2, some r⟩ := by
    rw [processLogs_append_none parseTs cfg pre (log :: post) s s' out h1,
      processLogs_cons_some parseTs cfg s' log post r (by rw [h2]), h2]
  refine ⟨hbatch, fun elapsed rest hlt => ?_⟩
  have hnle : ¬ (T ≤ elapsed) := not_le.mpr hlt
  have hstep : pollStep parseTs cfg T s ⟨elapsed, Fetch.ok (pre ++ log :: post)⟩ =
      ⟨s'', out ++ out2, some r⟩ := by
    unfold pollStep
    simp only [hnle, if_false]
    exact hbatch
  rw [pollRun_cons_some parseTs cfg T s _ rest r (by rw [hstep]), hstep]
  simp [hnle]

/-- The `pipeline_failed` entry used as the concrete terminal entry in
the C8 witness. -/
def witnessFailLog : LogEntry :=
  { timestamp := "2000", level := "info", message := "failed",
    metadata := some { action := some "pipeline_failed",
                       message := some "build broke" } }

/-- Witness for C8: a batch whose second entry is terminal never
processes the third entry (its id is never marked seen). -/
theorem firstTerminalStopsWitness :
    processLogs tsParse {} initState
        ([scenarioPhaseLog] ++ witnessFailLog :: [scenarioCompleteLog]) =
      ⟨⟨["1000-10phase syncphase sync-report_phase_change_success",
         "2000-6failedfailed-pipeline_failed"],
        ["sync"], ["sync"], [("sync", ⟨"1000", none⟩)]⟩,
       [OutputEvent.logLine "" "info" "phase sync", OutputEvent.phaseStart "" "sync"] ++
         [OutputEvent.logLine "" "info" "failed", OutputEvent.phaseCrossFail "" "sync",
          OutputEvent.failedError "build broke"],
       some { status := Status.failed, errorMessage := some "build broke",
              phases := ["sync"],
              phaseTimings := some [("sync", ⟨"1000", some 1000⟩)] }⟩ :=
  (firstTerminalStops tsParse {} 600000 initState
    ⟨["1000-10phase syncphase sync-report_phase_change_success"],
     ["sync"], ["sync"], [("sync", ⟨"1000", none⟩)]⟩
    ⟨["1000-10phase syncphase sync-report_phase_change_success",
      "2000-6failedfailed-pipeline_failed"],
     ["sync"], ["sync"], [("sync", ⟨"1000", none⟩)]⟩
    [scenarioPhaseLog] [scenarioCompleteLog] witnessFailLog
    [OutputEvent.logLine "" "info" "phase sync", OutputEvent.phaseStart "" "sync"]
    [OutputEvent.logLine "" "info" "failed", OutputEvent.phaseCrossFail "" "sync",
     OutputEvent.failedError "build broke"]
    { status := Status.failed, errorMessage := some "build broke",
      phases := ["sync"], phaseTimings := some [("sync", ⟨"1000", some 1000⟩)] }
    (by decide) (by decide)).1

lemma calc_lookup_last_none (parseTs : String → Option Int) (pt : PhaseTimings)
    (ps : List String) (p sp : String)
    (hnd : p ∉ ps) (ht : pt.lookup p = some ⟨sp, none⟩) :
    (calculatePhaseDurations parseTs pt (ps ++ [p]) none).lookup p = some ⟨sp, none⟩ := by
  induction ps with
  | nil =>
    simp only [List.nil_append, calculatePhaseDurations, ht]
    cases hpt : parseTs sp <;>
      simp [jsTruthyDur, hpt, List.lookup, Option.bind, calculatePhaseDurations]
  | cons a ps ih =>
    have hpa : p ≠ a := fun h => hnd (h ▸ List.mem_cons_self a ps)
    have ih' := ih fun h => hnd (List.mem_cons_of_mem a h)
    simp only [List.cons_append, calculatePhaseDurations]
    cases hla : pt.lookup a with
    | none => exact ih'
    | some ta =>
      simp only [List.lookup, beq_eq_false_iff_ne.mpr hpa]
      exact ih'

/-- Claim C5: when the deadline check fires, the iteration returns a
`timeout` result as data (whatever the pending fetch would have done),
its `phases` are exactly the accumulated ones, the run ends there with
no further fetch, and the last observed phase's duration is left unset
because no end boundary is supplied. -/
theorem timeoutReturnsAccumulated (parseTs : String → Option Int) (cfg : PollingConfig)
    (T : Nat) (s : PollState) (elapsed : Nat) (f : Fetch)
    (ps : List String) (p sp : String)
    (hT : T ≤ elapsed)
    (hph : s.phases = ps ++ [p])
    (hnd : p ∉ ps)
    (ht : s.phaseTimings.lookup p = some ⟨sp, none⟩) :
    pollStep parseTs cfg T s ⟨elapsed, f⟩ =
      ⟨s, [OutputEvent.timeoutError],
       some { status := Status.timeout, phases := s.phases,
              phaseTimings :=
                some (calculatePhaseDurations parseTs s.phaseTimings s.phases none) }⟩
  ∧ (∀ rest : List Iteration,
      pollRun parseTs cfg T s (⟨elapsed, f⟩ :: rest) =
        ⟨s, [OutputEvent.timeoutError],
         some { status := Status.timeout, phases := s.phases,
                phaseTimings :=
                  some (calculatePhaseDurations parseTs s.phaseTimings s.phases none) },
         0⟩)
  ∧ (calculatePhaseDurations parseTs s.phaseTimings s.phases none).lookup p =
      some ⟨sp, none⟩ := by
  have hstep : pollStep parseTs cfg T s ⟨elapsed, f⟩ =
      ⟨s, [OutputEvent.timeoutError],
       some { status := Status.timeout, phases := s.phases,
              phaseTimings :=
                some (calculatePhaseDurations parseTs s.phaseTimings s.phases none) }⟩ := by
    unfold pollStep
    simp [hT]
  refine ⟨hstep, fun rest => ?_, ?_⟩
  · rw [pollRun_cons_some parseTs cfg T s _ rest _ (by rw [hstep]), hstep]
    simp [hT]
  · rw [hph]
    exact calc_lookup_last_none parseTs s.phaseTimings ps p sp hnd ht

/-- Witness for C5: the spec's timeout scenario — one minute deadline,
phase "build" observed, then only empty batches. -/
theorem timeoutReturnsAccumulatedWitness :
    pollStep tsParse {} 60000
        ⟨["x"], ["build"], ["build"], [("build", ⟨"0", none⟩)]⟩ ⟨60000, Fetch.ok []⟩ =
      ⟨⟨["x"], ["build"], ["build"], [("build", ⟨"0", none⟩)]⟩,
       [OutputEvent.timeoutError],
       some { status := Status.timeout, phases := ["build"],
              phaseTimings := some [("build", ⟨"0", none⟩)] }⟩ :=
  (timeoutReturnsAccumulated tsParse {} 60000
    ⟨["x"], ["build"], ["build"], [("build", ⟨"0", none⟩)]⟩ 60000 (Fetch.ok [])
    [] "build" "0" (by decide) rfl (by decide) rfl).1

lemma calc_cons_gap (parseTs : String → Option Int) (pt : PhaseTimings)
    (p q : String) (rest : List String) (c : Option String)
    (sp sq : String) (dq : Option Int) (tp tq : Int)
    (hlp : pt.lookup p = some ⟨sp, none⟩)
    (hlq : pt.lookup q = some ⟨sq, dq⟩)
    (hp : parseTs sp = some tp)
    (hq : parseTs sq = some tq) :
    (calculatePhaseDurations parseTs pt (p :: q :: rest) c).lookup p =
      some ⟨sp, some (tq - tp)⟩ := by
  simp only [calculatePhaseDurations, hlp, hlq, hp, hq, jsTruthyDur]
  simp [List.lookup]

lemma calc_single_gap (parseTs : String → Option Int) (pt : PhaseTimings)
    (p : String) (c sp : String) (tp tc : Int)
    (hlp : pt.lookup p = some ⟨sp, none⟩)
    (hp : parseTs sp = some tp)
    (hc : parseTs c = some tc) :
    (calculatePhaseDurations parseTs pt [p] (some c)).lookup p =
      some ⟨sp, some (tc - tp)⟩ := by
  simp only [calculatePhaseDurations, hlp, hp, hc, jsTruthyDur, Option.bind]
  simp [List.lookup]

/-- Claim C4: finalizing phases `["plan","apply","verify"]` first
observed at instants `t0 < t1 < t2` with completion boundary `t3` gives
durations `t1-t0`, `t2-t1`, `t3-t2`; in general a phase's duration is
the gap from its own `startedAt` to the next phase's `startedAt`, and
the last phase's duration is the gap to the supplied end boundary. -/
theorem phaseDurationGaps (parseTs : String → Option Int) (pt : PhaseTimings)
    (s0 s1 s2 e : String) (t0 t1 t2 t3 : Int)
    (h0 : pt.lookup "plan" = some ⟨s0, none⟩)
    (h1 : pt.lookup "apply" = some ⟨s1, none⟩)
    (h2 : pt.lookup "verify" = some ⟨s2, none⟩)
    (hp0 : parseTs s0 = some t0) (hp1 : parseTs s1 = some t1)
    (hp2 : parseTs s2 = some t2) (hp3 : parseTs e = some t3)
    (hord : t0 < t1 ∧ t1 < t2 ∧ t2 < t3) :
    ((calculatePhaseDurations parseTs pt ["plan", "apply", "verify"] (some e)).lookup "plan" =
        some ⟨s0, some (t1 - t0)⟩
      ∧ (calculatePhaseDurations parseTs pt ["plan", "apply", "verify"] (some e)).lookup "apply" =
        some ⟨s1, some (t2 - t1)⟩
      ∧ (calculatePhaseDurations parseTs pt ["plan", "apply", "verify"] (some e)).lookup "verify" =
        some ⟨s2, some (t3 - t2)⟩)
  ∧ (∀ (pt' : PhaseTimings) (p q : String) (rest : List String) (c : Option String)
      (sp sq : String) (dq : Option Int) (tp tq : Int),
      pt'.lookup p = some ⟨sp, none⟩ → pt'.lookup q = some ⟨sq, dq⟩ →
      parseTs sp = some tp → parseTs sq = some tq →
      (calculatePhaseDurations parseTs pt' (p :: q :: rest) c).lookup p =
        some ⟨sp, some (tq - tp)⟩)
  ∧ (∀ (pt' : PhaseTimings) (p c sp : String) (tp tc : Int),
      pt'.lookup p = some ⟨sp, none⟩ → parseTs sp = some tp → parseTs c = some tc →
      (calculatePhaseDurations parseTs pt' [p] (some c)).lookup p =
        some ⟨sp, some (tc - tp)⟩) := by
  refine ⟨⟨?_, ?_, ?_⟩,
    fun pt' p q rest c sp sq dq tp tq hlp hlq hp hq =>
      calc_cons_gap parseTs pt' p q rest c sp sq dq tp tq hlp hlq hp hq,
    fun pt' p c sp tp tc hlp hp hc =>
      calc_single_gap parseTs pt' p c sp tp tc hlp hp hc⟩
  · simp only [calculatePhaseDurations, h0, h1, h2, hp0, hp1, hp2, hp3, jsTruthyDur]
    simp [List.lookup]
  · simp only [calculatePhaseDurations, h0, h1, h2, hp0, hp1, hp2, hp3, jsTruthyDur]
    simp [List.lookup]
  · simp only [calculatePhaseDurations, h0, h1, h2, hp0, hp1, hp2, hp3, jsTruthyDur,
      Option.bind]
    simp [List.lookup]

/-- Witness for C4 at concrete millisecond instants 0, 100, 300, 600. -/
theorem phaseDurationGapsWitness :
    (calculatePhaseDurations tsParse
        [("plan", ⟨"0", none⟩), ("apply", ⟨"100", none⟩), ("verify", ⟨"300", none⟩)]
        ["plan", "apply", "verify"] (some "600")).lookup "plan" =
      some ⟨"0", some 100⟩ :=
  ((phaseDurationGaps tsParse
      [("plan", ⟨"0", none⟩), ("apply", ⟨"100", none⟩), ("verify", ⟨"300", none⟩)]
      "0" "100" "300" "600" 0 100 300 600
      (by decide) (by decide) (by decide) (by decide) (by decide) (by decide) (by decide)
      (by decide)).1).1

lemma handlePhaseChange_cfgFree (parseTs : String → Option Int) (cfg cfg' : PollingConfig)
    (s1 : PollState) (log : LogEntry) (md : LogMetadata) :
    (handlePhaseChange parseTs cfg s1 log md).state =
      (handlePhaseChange parseTs cfg' s1 log md).state
  ∧ (handlePhaseChange parseTs cfg s1 log md).result =
      (handlePhaseChange parseTs cfg' s1 log md).result := by
  cases h : md.details.bind MetaDetails.phase with
  | none =>
    rw [handlePhaseChange_noPhase parseTs cfg s1 log md h,
      handlePhaseChange_noPhase parseTs cfg' s1 log md h]
    exact ⟨rfl, rfl⟩
  | some phase =>
    cases hc : (phase == "" || s1.seenPhases.contains phase) with
    | true =>
      rw [handlePhaseChange_skip parseTs cfg s1 log md phase h hc,
        handlePhaseChange_skip parseTs cfg' s1 log md phase h hc]
      exact ⟨rfl, rfl⟩
    | false =>
      refine ⟨?_, ?_⟩
      · rw [handlePhaseChange_new_state parseTs cfg s1 log md phase h hc,
          handlePhaseChange_new_state parseTs cfg' s1 log md phase h hc]
      · rw [handlePhaseChange_new_result parseTs cfg s1 log md phase h hc,
          handlePhaseChange_new_result parseTs cfg' s1 log md phase h hc]

lemma processBranch_cfgFree (parseTs : String → Option Int) (cfg cfg' : PollingConfig)
    (s1 : PollState) (log : LogEntry) :
    (processBranch parseTs cfg s1 log).state = (processBranch parseTs cfg' s1 log).state
  ∧ (processBranch parseTs cfg s1 log).result = (processBranch parseTs cfg' s1 log).result := by
  by_cases hl : toLowerCase log.level = "error"
  · rw [processBranch_error parseTs cfg s1 log hl,
      processBranch_error parseTs cfg' s1 log hl]
    exact ⟨rfl, rfl⟩
  · cases hm : log.metadata with
    | none =>
      unfold processBranch
      simp [hl, hm]
    | some md =>
      cases ha : md.action with
      | none =>
        unfold processBranch
        simp [hl, hm, ha]
      | some act =>
        by_cases he : act = ""
        · unfold processBranch
          simp [hl, hm, ha, he]
        · by_cases hp : act = "report_phase_change_success"
          · subst hp
            rw [processBranch_phase parseTs cfg s1 log md hl hm ha,
              processBranch_phase parseTs cfg' s1 log md hl hm ha]
            exact handlePhaseChange_cfgFree parseTs cfg cfg' s1 log md
          · by_cases hcm : act = "pipeline_complete"
            · subst hcm
              rw [processBranch_complete parseTs cfg s1 log md hl hm ha,
                processBranch_complete parseTs cfg' s1 log md hl hm ha]
              exact ⟨rfl, rfl⟩
            · by_cases hf : act = "pipeline_failed" ∨ act = "pipeline_error"
              · have ha' : md.action = some "pipeline_failed" ∨
                    md.action = some "pipeline_error" := by
                  rcases hf with h | h <;> subst h
                  · exact Or.inl ha
                  · exact Or.inr ha
                rw [processBranch_failedAction parseTs cfg s1 log md hl hm ha',
                  processBranch_failedAction parseTs cfg' s1 log md hl hm ha']
                exact ⟨rfl, rfl⟩
              · obtain ⟨hf1, hf2⟩ := not_or.mp hf
                unfold processBranch
                simp [hl, hm, ha, he, hp, hcm, hf1, hf2]

lemma processLog_cfgFree (parseTs : String → Option Int) (cfg cfg' : PollingConfig)
    (s : PollState) (log : LogEntry) :
    (processLog parseTs cfg s log).state = (processLog parseTs cfg' s log).state
  ∧ (processLog parseTs cfg s log).result = (processLog parseTs cfg' s log).result := by
  cases h : s.seenLogIds.contains (getLogId log) with
  | true =>
    rw [processLog_seen parseTs cfg s log h, processLog_seen parseTs cfg' s log h]
    exact ⟨rfl, rfl⟩
  | false =>
    rw [processLog_fresh parseTs cfg s log h, processLog_fresh parseTs cfg' s log h]
    exact processBranch_cfgFree parseTs cfg cfg' _ log

lemma processLogs_cfgFree (parseTs : String → Option Int) (cfg cfg' : PollingConfig)
    (logs : List LogEntry) (s : PollState) :
    (processLogs parseTs cfg s logs).state = (processLogs parseTs cfg' s logs).state
  ∧ (processLogs parseTs cfg s logs).result = (processLogs parseTs cfg' s logs).result := by
  induction logs generalizing s with
  | nil => exact ⟨rfl, rfl⟩
  | cons a rest ih =>
    obtain ⟨hst, hres⟩ := processLog_cfgFree parseTs cfg cfg' s a
    cases ho : (processLog parseTs cfg s a).result with
    | some r =>
      rw [processLogs_cons_some parseTs cfg s a rest r ho,
        processLogs_cons_some parseTs cfg' s a rest r (by rw [← hres, ho])]
      exact ⟨hst, rfl⟩
    | none =>
      rw [processLogs_cons_none parseTs cfg s a rest ho,
        processLogs_cons_none parseTs cfg' s a rest (by rw [← hres, ho])]
      rw [← hst]
      exact ih (processLog parseTs cfg s a).state

lemma pollStep_cfgFree (parseTs : String → Option Int) (cfg cfg' : PollingConfig)
    (T : Nat) (s : PollState) (it : Iteration) :
    (pollStep parseTs cfg T s it).state = (pollStep parseTs cfg' T s it).state
  ∧ (pollStep parseTs cfg T s it).result = (pollStep parseTs cfg' T s it).result := by
  unfold pollStep
  by_cases ht : T ≤ it.elapsed
  · simp [ht]
  · simp only [ht, if_false]
    cases it.fetch with
    | fail message => cases ha : isPermanentAuthError message <;> simp [ha]
    | ok logs => exact processLogs_cfgFree parseTs cfg cfg' logs s

lemma pollRun_cfgFree (parseTs : String → Option Int) (cfg cfg' : PollingConfig)
    (T : Nat) (trace : List Iteration) (s : PollState) :
    (pollRun parseTs cfg T s trace).state = (pollRun parseTs cfg' T s trace).state
  ∧ (pollRun parseTs cfg T s trace).result = (pollRun parseTs cfg' T s trace).result
  ∧ (pollRun parseTs cfg T s trace).fetchCalls = (pollRun parseTs cfg' T s trace).fetchCalls := by
  induction trace generalizing s with
  | nil => exact ⟨rfl, rfl, rfl⟩
  | cons it rest ih =>
    obtain ⟨hst, hres⟩ := pollStep_cfgFree parseTs cfg cfg' T s it
    cases ho : (pollStep parseTs cfg T s it).result with
    | some r =>
      rw [pollRun_cons_some parseTs cfg T s it rest r ho,
        pollRun_cons_some parseTs cfg' T s it rest r (by rw [← hres, ho])]
      exact ⟨hst, rfl, rfl⟩
    | none =>
      rw [pollRun_cons_none parseTs cfg T s it rest ho,
        pollRun_cons_none parseTs cfg' T s it rest (by rw [← hres, ho])]
      rw [← hst]
      obtain ⟨h1, h2, h3⟩ := ih (pollStep parseTs cfg T s it).state
      exact ⟨h1, h2, by rw [h3]⟩

/-- Claim C9: two poll sessions over the same fetcher behavior that
differ only in `logVerbosity` end in the same state, the same
`PollingResult` and the same number of fetch calls — verbosity only
changes the emitted progress lines. -/
theorem verbosityNoninterference (parseTs : String → Option Int)
    (cfg cfg' : PollingConfig) (T : Nat) (s : PollState) (trace : List Iteration)
    (hd : cfg.pollDelayMs = cfg'.pollDelayMs) (hl : cfg.logLimit = cfg'.logLimit) :
    (pollRun parseTs cfg T s trace).state = (pollRun parseTs cfg' T s trace).state
  ∧ (pollRun parseTs cfg T s trace).result = (pollRun parseTs cfg' T s trace).result
  ∧ (pollRun parseTs cfg T s trace).fetchCalls = (pollRun parseTs cfg' T s trace).fetchCalls :=
  pollRun_cfgFree parseTs cfg cfg' T trace s

/-- Witness for C9: a `verbose` and a `none` run over a concrete trace
agree on state, result and fetch count. -/
theorem verbosityNoninterferenceWitness :
    (pollRun tsParse ⟨2000, 200, LogVerbosity.verbose⟩ 600000 initState
        [⟨0, Fetch.ok [scenarioPhaseLog]⟩, ⟨2000, Fetch.ok [scenarioPhaseLog, scenarioCompleteLog]⟩]).result =
      (pollRun tsParse ⟨2000, 200, LogVerbosity.none⟩ 600000 initState
        [⟨0, Fetch.ok [scenarioPhaseLog]⟩, ⟨2000, Fetch.ok [scenarioPhaseLog, scenarioCompleteLog]⟩]).result :=
  (verbosityNoninterference tsParse ⟨2000, 200, LogVerbosity.verbose⟩
    ⟨2000, 200, LogVerbosity.none⟩ 600000 initState
    [⟨0, Fetch.ok [scenarioPhaseLog]⟩, ⟨2000, Fetch.ok [scenarioPhaseLog, scenarioCompleteLog]⟩]
    rfl rfl).2.1

/-- Claim C10: `isSuccessful` holds exactly on status `success`,
`isFailed` holds exactly on `failed` or `timeout`, exactly one of the
two holds for every result, and the caller in `main.ts` marks the
action failed exactly on `failed` or `timeout` — in particular on a
timeout outcome. -/
theorem resultPredicates (r : PollingResult) :
    (isSuccessful r = true ↔ r.status = Status.success)
  ∧ (isFailed r = true ↔ (r.status = Status.failed ∨ r.status = Status.timeout))
  ∧ (isSuccessful r = !(isFailed r))
  ∧ ((runAfterPoll r).failed = true ↔ (r.status = Status.failed ∨ r.status = Status.timeout)) := by
  cases h : r.status <;> simp [isSuccessful, isFailed, runAfterPoll, h]

end DeployAction
